import Mathlib

/-!
Verification development for the countrystatecity lazy data-access layer.

The definitions below are a shallow embedding of the two loader packages:

* `packages/countries` (Node variant, `src/loaders.ts`, and its richer
  snapshot with multi-candidate path resolution) — the Segment Resolver
  (`getCountryDirName` / `getStateDirName`) and the multi-strategy
  `loadJSON`;
* `packages/countries-browser` (`src/config.ts`, `src/loaders.ts`,
  `src/utils.ts`) — the fetch-based `loadJSON` with its result cache,
  the configuration store, the facade getters and the derived utilities.

JavaScript `Map` objects and plain objects used as string dictionaries are
both embedded as insertion-ordered association lists with `Map.set`
(update-in-place-or-append) semantics.  Effectful functions are embedded in
state-passing style; thrown exceptions become `Except` values; the
environment (HTTP responses, the file system, directory listings) is an
explicit `World` record.  Instrumentation (a log of performed fetches /
directory enumerations) is carried in the state so that "exactly one load"
style properties are expressible.
-/

set_option autoImplicit false

namespace CSC

/-- Entry layout of `countries.json` (descriptive attributes that no claim
refers to — iso3, phonecode, currency, … — are elided). -/
structure ICountry where
  id : Nat
  name : String
  iso2 : String
deriving DecidableEq, Repr

/-- Entry layout of a per-country `meta.json` / `country/{ISO2}.json`
document (extended attributes that no claim refers to are elided). -/
structure ICountryMeta where
  id : Nat
  name : String
  iso2 : String
deriving DecidableEq, Repr

/-- Entry layout of a `states.json` / `states/{ISO2}.json` document. -/
structure IState where
  id : Nat
  name : String
  iso2 : String
  country_code : String
deriving DecidableEq, Repr

/-- Entry layout of a `cities.json` / `cities/{ISO2}-{STATE}.json` document. -/
structure ICity where
  id : Nat
  name : String
  state_code : String
  country_code : String
deriving DecidableEq, Repr

/-- A parsed JSON document as stored in the loaders' caches.  The TypeScript
code stores `any`; the documents actually produced by the data pipeline are
one of these four shapes. -/
inductive Doc where
  | countries (xs : List ICountry)
  | meta (m : ICountryMeta)
  | states (xs : List IState)
  | cities (xs : List ICity)
deriving DecidableEq, Repr

/-- The unchecked TypeScript cast `loadJSON<IState[]>`: project a document
to a list of states.  (The cast performs no runtime conversion; documents of
the wrong shape do not occur in any claim.) -/
def Doc.asStates : Doc → List IState
  | .states xs => xs
  | _ => []

/-- The unchecked TypeScript cast `loadJSON<ICity[]>`. -/
def Doc.asCities : Doc → List ICity
  | .cities xs => xs
  | _ => []

/-- The unchecked TypeScript cast `loadJSON<ICountry[]>`. -/
def Doc.asCountries : Doc → List ICountry
  | .countries xs => xs
  | _ => []

/-- `m.set k v` on a JavaScript `Map` (also a computed-key store into a
plain object): update the first binding of `k` in place, or append a new
binding.  Keys produced this way are unique. -/
def jsMapSet {κ α : Type} [DecidableEq κ] (m : List (κ × α)) (k : κ) (v : α) :
    List (κ × α) :=
  match m with
  | [] => [(k, v)]
  | (k', v') :: rest =>
    if k' = k then (k, v) :: rest else (k', v') :: jsMapSet rest k v

/-- `m.get k` on a JavaScript `Map` / property read on a plain object. -/
def jsLookup {κ α : Type} [DecidableEq κ] (m : List (κ × α)) (k : κ) : Option α :=
  match m with
  | [] => none
  | (k', v') :: rest => if k' = k then some v' else jsLookup rest k

/-- `{...a, ...b}` on plain objects used as string dictionaries: start from
`a` and write every binding of `b` over it, in `b`'s order. -/
def jsAssign (a b : List (String × String)) : List (String × String) :=
  b.foldl (fun m kv => jsMapSet m kv.1 kv.2) a

/-- The characters after the last `-` of a character list (the whole list
when no `-` occurs), structurally recursive. -/
def suffixAfterLastDash : List Char → List Char
  | [] => []
  | c :: cs =>
    if cs.contains '-' then suffixAfterLastDash cs
    else if c = '-' then cs else c :: suffixAfterLastDash cs

/-- `dir.split('-')` followed by `parts[parts.length - 1]`: the code suffix
after the last `-` separator of a segment name (the whole name when it
contains no `-`). -/
def lastDashSuffix (dir : String) : String :=
  String.mk (suffixAfterLastDash dir.data)

/-! ## Browser package: `config.ts`

`currentConfig` is a module-level binding holding a plain object; object
spread copies the scalar fields by value and the `headers` field by
reference.  We embed objects-with-references with a small heap: a `CObj`
holds a reference (`headersRef`) into a heap of headers dictionaries. -/

/-- Options accepted by `configure` — every field optional. -/
structure ConfigOptions where
  baseURL : Option String := none
  cache : Option Bool := none
  timeout : Option Nat := none
  headers : Option (List (String × String)) := none
deriving DecidableEq, Repr

/-- A configuration object as a JavaScript value: scalar fields are held by
value, the `headers` field is a reference to an allocated headers object. -/
structure CObj where
  baseURL : String
  cache : Bool
  timeout : Nat
  headersRef : Nat
deriving DecidableEq, Repr

/-- `defaultConfig`: `baseURL '/data'`, `cache true`, `timeout 5000`, and a
headers object allocated at reference `0` holding the empty literal. -/
def defaultConfig : CObj := ⟨"/data", true, 5000, 0⟩

/-- Module-level state of `config.ts`: the `currentConfig` binding, a heap
of allocated headers objects, and the next fresh reference. -/
structure CState where
  current : CObj
  heap : List (Nat × List (String × String))
  fresh : Nat
deriving DecidableEq, Repr

/-- State at module initialisation: `currentConfig` is an object-spread
copy of `defaultConfig`, hence it shares `defaultConfig`'s headers object
(reference `0`, holding the empty dictionary). -/
def initCState : CState := ⟨defaultConfig, [(0, [])], 1⟩

/-- Dereference a headers object. -/
def heapGet (s : CState) (r : Nat) : List (String × String) :=
  (jsLookup s.heap r).getD []

/-- The headers dictionary a configuration object currently denotes. -/
def effHeaders (s : CState) (obj : CObj) : List (String × String) :=
  heapGet s obj.headersRef

/-- `configure(options)`: spread `currentConfig`, then `options`, then
replace `headers` by the fresh object
`{...currentConfig.headers, ...(options.headers || {})}`.  A field absent
from `options` keeps its current value; the merged headers land in a newly
allocated object. -/
def configure (opts : ConfigOptions) (s : CState) : CState :=
  let merged := jsAssign (effHeaders s s.current) (opts.headers.getD [])
  { current :=
      { baseURL := opts.baseURL.getD s.current.baseURL
        cache := opts.cache.getD s.current.cache
        timeout := opts.timeout.getD s.current.timeout
        headersRef := s.fresh }
    heap := jsMapSet s.heap s.fresh merged
    fresh := s.fresh + 1 }

/-- `getConfig()`: `return { ...currentConfig }` — a shallow copy.  As a
value the copy equals `currentConfig` itself; in particular it carries the
same `headersRef`. -/
def getConfig (s : CState) : CObj := s.current

/-- `resetConfiguration()`: `currentConfig = { ...defaultConfig }` — the
scalar defaults by value, and `defaultConfig`'s headers object (reference
`0`) by reference. -/
def resetConfiguration (s : CState) : CState :=
  { s with current := defaultConfig }

/-- A caller mutating the headers object reachable from a configuration
object it holds (for example `getConfig().headers['X'] = 'y'`): the heap
cell the object's `headersRef` points to is updated in place. -/
def setHeaderThrough (s : CState) (obj : CObj) (k v : String) : CState :=
  { s with heap := jsMapSet s.heap obj.headersRef (jsMapSet (heapGet s obj.headersRef) k v) }

/-- A caller assigning a scalar field of an object it holds (for example
`cfg.baseURL = 'x'`) mutates only that copy: the module state carries no
reference to the copy, so this is pure value replacement. -/
def setBaseURLOnCopy (obj : CObj) (u : String) : CObj :=
  { obj with baseURL := u }

/-- The configuration as the loaders consume it (scalar fields plus the
dereferenced headers). -/
structure ConfigView where
  baseURL : String
  cache : Bool
  timeout : Nat
  headers : List (String × String)
deriving DecidableEq, Repr

/-- `getConfig()` as observed by `loadJSON`: scalar fields of
`currentConfig` plus the headers dictionary it currently references. -/
def readConfig (s : CState) : ConfigView :=
  ⟨s.current.baseURL, s.current.cache, s.current.timeout, effHeaders s s.current⟩

/-! ## Browser package: `loaders.ts` -/

/-- How `fetch(fullPath, ...)` together with `response.json()` settles. -/
inductive FetchOutcome where
  | ok (doc : Doc)
  | httpErr (status : Nat) (statusText : String)
  | jsonErr
  | abortErr
  | netErr (msg : String)
deriving DecidableEq, Repr

/-- The errors `loadJSON` can throw, one constructor per `throw` site. -/
inductive LoadError where
  | fetchFailed (fullPath : String) (status : Nat) (statusText : String)
  | timeout (ms : Nat) (fullPath : String)
  | parseErr
  | netErr (msg : String)
deriving DecidableEq, Repr

/-- The signal value `loadJSON` hands to `fetch`. -/
inductive UsedSignal where
  | caller
  | timeoutCtrl
deriving DecidableEq, Repr

/-- The `options` argument of `loadJSON` (`FetchOptions` in `types.ts`).
The caller's `AbortSignal`, when supplied, is an opaque object. -/
structure FetchOptions where
  signal : Option Unit := none
  priority : Option String := none
deriving DecidableEq, Repr

/-- `options?.signal || controller.signal`: the signal actually passed to
`fetch` is the caller's when one is supplied, else the signal of the
`AbortController` that the load's timeout aborts. -/
def fetchSignal (opts : Option FetchOptions) : UsedSignal :=
  match opts with
  | some o => match o.signal with
    | some _ => .caller
    | none => .timeoutCtrl
  | none => .timeoutCtrl

/-- The network environment: the settled outcome of a fetch, given the
request URL, the request headers and the signal passed along.  (Worlds used
in the claims ignore the signal; it matters only for the non-settling
source modelled by `slowFetchPhase`.) -/
structure BWorld where
  fetch : String → List (String × String) → UsedSignal → FetchOutcome

/-- Module-level state of the browser `loaders.ts` plus its `config.ts`
state, with an instrumentation log of the URLs actually fetched. -/
structure BState where
  cfg : CState
  cache : List (String × Doc)
  fetchLog : List String
deriving DecidableEq, Repr

/-- `loadJSON(path, options)`: resolve the full path against the current
`baseURL`; serve from the cache when caching is on and the key is present;
otherwise fetch, classify the outcome exactly as the `try/catch` does
(non-`ok` responses throw a fetch-failed error, `AbortError` is rethrown as
a timeout error, everything else propagates), and write a successful result
into the cache before returning when caching is on. -/
def bLoadJSON (w : BWorld) (path : String) (opts : Option FetchOptions)
    (s : BState) : Except LoadError Doc × BState :=
  let config := readConfig s.cfg
  let fullPath := config.baseURL ++ path
  match (if config.cache then jsLookup s.cache fullPath else none) with
  | some d => (.ok d, s)
  | none =>
    let s1 : BState := { s with fetchLog := s.fetchLog ++ [fullPath] }
    match w.fetch fullPath config.headers (fetchSignal opts) with
    | .ok data =>
      if config.cache then
        (.ok data, { s1 with cache := jsMapSet s1.cache fullPath data })
      else
        (.ok data, s1)
    | .httpErr st stt => (.error (.fetchFailed fullPath st stt), s1)
    | .jsonErr => (.error .parseErr, s1)
    | .abortErr => (.error (.timeout config.timeout fullPath), s1)
    | .netErr m => (.error (.netErr m), s1)

/-- `clearCache()`: `cache.clear()`. -/
def clearCache (s : BState) : BState := { s with cache := [] }

/-- `getCountries()`: no `try/catch`, load errors propagate. -/
def bGetCountries (w : BWorld) (s : BState) :
    Except LoadError (List ICountry) × BState :=
  match bLoadJSON w "/countries.json" none s with
  | (.ok d, s') => (.ok d.asCountries, s')
  | (.error e, s') => (.error e, s')

/-- `getCountryByCode(countryCode)`: load `country/ISO2.json`; the `catch`
absorbs any error into `null`. -/
def bGetCountryByCode (w : BWorld) (countryCode : String) (s : BState) :
    Except LoadError (Option Doc) × BState :=
  match bLoadJSON w ("/country/" ++ countryCode ++ ".json") none s with
  | (.ok d, s') => (.ok (some d), s')
  | (.error _, s') => (.ok none, s')

/-- `getStatesOfCountry(countryCode)`: load `states/ISO2.json`; the `catch`
absorbs any error into the empty array. -/
def bGetStatesOfCountry (w : BWorld) (countryCode : String) (s : BState) :
    Except LoadError (List IState) × BState :=
  match bLoadJSON w ("/states/" ++ countryCode ++ ".json") none s with
  | (.ok d, s') => (.ok d.asStates, s')
  | (.error _, s') => (.ok [], s')

/-- `getStateByCode(countryCode, stateCode)`: the states of the country,
filtered in memory; `state || null`. -/
def bGetStateByCode (w : BWorld) (countryCode stateCode : String)
    (s : BState) : Except LoadError (Option IState) × BState :=
  match bGetStatesOfCountry w countryCode s with
  | (.ok states, s') => (.ok (states.find? fun st => st.iso2 == stateCode), s')
  | (.error e, s') => (.error e, s')

/-- `getCitiesOfState(countryCode, stateCode)`: load
`cities/ISO2-STATE.json`; the `catch` absorbs any error into the empty
array. -/
def bGetCitiesOfState (w : BWorld) (countryCode stateCode : String)
    (s : BState) : Except LoadError (List ICity) × BState :=
  match bLoadJSON w ("/cities/" ++ countryCode ++ "-" ++ stateCode ++ ".json")
      none s with
  | (.ok d, s') => (.ok d.asCities, s')
  | (.error _, s') => (.ok [], s')

/-! ## Browser package: `utils.ts` (derived utilities) -/

/-- `isValidStateCode`: `states.some(s => s.iso2 === stateCode)` over the
result of `getStatesOfCountry`. -/
def isValidStateCode (w : BWorld) (countryCode stateCode : String)
    (s : BState) : Except LoadError Bool × BState :=
  match bGetStatesOfCountry w countryCode s with
  | (.ok states, s') => (.ok (states.any fun st => st.iso2 == stateCode), s')
  | (.error e, s') => (.error e, s')

/-- `getStateNameByCode`: `states.find(...)` then `state ? state.name :
null` over the result of `getStatesOfCountry`. -/
def getStateNameByCode (w : BWorld) (countryCode stateCode : String)
    (s : BState) : Except LoadError (Option String) × BState :=
  match bGetStatesOfCountry w countryCode s with
  | (.ok states, s') =>
    (.ok (match states.find? (fun st => st.iso2 == stateCode) with
          | some st => some st.name
          | none => none), s')
  | (.error e, s') => (.error e, s')

/-! ## Timeout behaviour against a source that never responds

`loadJSON` arms `setTimeout(() => controller.abort(), config.timeout)`.
By the platform contract of `AbortController`/`fetch`, that abort makes the
in-flight request reject with `AbortError` only if the signal passed to
`fetch` is `controller.signal`; a fetch listening to a different signal is
unaffected.  Against a source that never responds by itself, the await
either settles through that abort or never settles. -/

/-- How the awaited fetch of one load settles against a never-responding
source. -/
inductive SlowLoad where
  | completes (e : LoadError)
  | hangs
deriving DecidableEq, Repr

/-- The fetch-and-classify phase of `loadJSON` (after a cache miss) against
a never-responding source: if the fetch listens to the load's own timeout
controller, the timer fires, the request aborts, and the `catch` converts
the `AbortError` into the timeout error; if the fetch listens to a
caller-supplied signal that never fires, the await never settles. -/
def slowFetchPhase (timeoutMs : Nat) (fullPath : String)
    (opts : Option FetchOptions) : SlowLoad :=
  match fetchSignal opts with
  | .timeoutCtrl => .completes (.timeout timeoutMs fullPath)
  | .caller => .hangs

/-! ## Node package: `loaders.ts` (multi-strategy loader, segment resolver)

Embedded from the Node loader snapshot with multi-candidate path
resolution (`loadJSON`, `getCountryDirName`, `getStateDirName` and the
facade getters, identical in `packages/countries/src/loaders.ts` where
present).  The modeled host is a Node environment: `isNodeEnvironment()`
returns true, so the fs branch runs first and the browser-only error
branch is dead. -/

/-- Errors of the dynamic-import strategy; after the fs strategies are
exhausted the loader rethrows this error unchanged (`throw error`). -/
inductive NLoadErr where
  | moduleNotFound (msg : String)
  | importErr (msg : String)
deriving DecidableEq, Repr

/-- The Node environment.  `readFile` is `fs.readFileSync` (`none` models
a throw), `parse` is `JSON.parse` (`none` models a `SyntaxError`),
`dynImport` is `import(path)` yielding `module.default`, `readdir` is
`fs.readdirSync(..).filter(isDirectory).map(name)`. -/
structure NodeWorld where
  basePath : String
  cwd : String
  readFile : String → Option String
  parse : String → Option Doc
  dynImport : String → Except NLoadErr Doc
  readdir : String → List String

/-- `path.join` of two segments.  (The normalisation `join` performs on
`.` and `..` segments is immaterial here: the claims are about the order
of the candidate strings, not their spelling.) -/
def pjoin (a b : String) : String := a ++ "/" ++ b

/-- The `possiblePaths` array of `loadJSON`, in source order:
module-relative, parent-relative, then the absolute install-root path
under `process.cwd()`. -/
def nPossiblePaths (w : NodeWorld) (path : String) : List String :=
  [ pjoin w.basePath path,
    pjoin (pjoin w.basePath "..") path,
    pjoin w.cwd (pjoin "node_modules" (pjoin "@countrystatecity"
      (pjoin "countries" (pjoin "dist" path)))) ]

/-- The `for (const fullPath of possiblePaths)` loop: try `readFileSync`
on each candidate, `break` on the first success.  Returns the raw contents
found (if any) together with the list of candidates actually read. -/
def nFsScan (w : NodeWorld) : List String → Option String × List String
  | [] => (none, [])
  | p :: rest =>
    match w.readFile p with
    | some raw => (some raw, [p])
    | none =>
      let r := nFsScan w rest
      (r.1, p :: r.2)

/-- Instrumentation of one `loadJSON` call: the full paths passed to
`readFileSync` and the module specifiers passed to `import()`. -/
structure NTrace where
  fsReads : List String
  dynTried : List String
deriving DecidableEq, Repr

/-- `loadJSON(path)` in a Node host.  The fs strategy scans the candidate
paths in order; a read failure of every candidate raises a
`MODULE_NOT_FOUND` error that the enclosing `catch (fsError)` swallows, as
does a `JSON.parse` failure of contents that were read; in both cases
control falls through to the dynamic-import strategy, whose error — when
it too fails — is rethrown unchanged. -/
def nLoadJSON (w : NodeWorld) (path : String) : Except NLoadErr Doc × NTrace :=
  let scan := nFsScan w (nPossiblePaths w path)
  match scan.1 with
  | some raw =>
    match w.parse raw with
    | some d => (.ok d, ⟨scan.2, []⟩)
    | none => (w.dynImport path, ⟨scan.2, [path]⟩)
  | none => (w.dynImport path, ⟨scan.2, [path]⟩)

/-- Module-level state of the Node loader: the two memoized segment maps
(`countryDirMap`, `stateDirMaps`), with an instrumentation log of the
directories actually enumerated. -/
structure NState where
  countryDirMap : Option (List (String × String))
  stateDirMaps : List (String × List (String × String))
  readdirLog : List String
deriving DecidableEq, Repr

/-- State at module initialisation. -/
def initNState : NState := ⟨none, [], []⟩

/-- `path.join(basePath, 'data')`. -/
def dataDir (w : NodeWorld) : String := pjoin w.basePath "data"

/-- The map-building loop shared by both scopes: for each segment name,
derive the code as the suffix after the last `-` and `Map.set` it. -/
def buildDirMap (dirs : List String) : List (String × String) :=
  dirs.foldl (fun m d => jsMapSet m (lastDashSuffix d) d) []

/-- `getCountryDirName(countryCode)`: build `countryDirMap` from one
enumeration of the data directory on first call, then pure map lookups
(`countryDirMap.get(countryCode) || null`). -/
def getCountryDirName (w : NodeWorld) (countryCode : String) (s : NState) :
    Option String × NState :=
  match s.countryDirMap with
  | some m => (jsLookup m countryCode, s)
  | none =>
    let m := buildDirMap (w.readdir (dataDir w))
    (jsLookup m countryCode,
     { s with countryDirMap := some m
              readdirLog := s.readdirLog ++ [dataDir w] })

/-- `getStateDirName(countryCode, stateCode)`: resolve the country segment
first; build the per-country state map from one enumeration of the country
directory when `stateDirMaps` lacks the country, then pure lookups. -/
def getStateDirName (w : NodeWorld) (countryCode stateCode : String)
    (s : NState) : Option String × NState :=
  match getCountryDirName w countryCode s with
  | (none, s1) => (none, s1)
  | (some countryDir, s1) =>
    match jsLookup s1.stateDirMaps countryCode with
    | some sm => (jsLookup sm stateCode, s1)
    | none =>
      let p := pjoin (dataDir w) countryDir
      let sm := buildDirMap (w.readdir p)
      (jsLookup sm stateCode,
       { s1 with stateDirMaps := jsMapSet s1.stateDirMaps countryCode sm
                 readdirLog := s1.readdirLog ++ [p] })

/-- `getCountryByCode` (Node): resolve the country segment, return `null`
when absent, else load `./data/COUNTRYDIR/meta.json`; the `catch` absorbs
any error into `null`. -/
def nGetCountryByCode (w : NodeWorld) (countryCode : String) (s : NState) :
    Except NLoadErr (Option Doc) × NState :=
  match getCountryDirName w countryCode s with
  | (none, s1) => (.ok none, s1)
  | (some countryDir, s1) =>
    match (nLoadJSON w ("./data/" ++ countryDir ++ "/meta.json")).1 with
    | .ok d => (.ok (some d), s1)
    | .error _ => (.ok none, s1)

/-- `getStatesOfCountry` (Node): empty array when the country segment is
absent; the `catch` absorbs any load error into the empty array. -/
def nGetStatesOfCountry (w : NodeWorld) (countryCode : String) (s : NState) :
    Except NLoadErr (List IState) × NState :=
  match getCountryDirName w countryCode s with
  | (none, s1) => (.ok [], s1)
  | (some countryDir, s1) =>
    match (nLoadJSON w ("./data/" ++ countryDir ++ "/states.json")).1 with
    | .ok d => (.ok d.asStates, s1)
    | .error _ => (.ok [], s1)

/-- `getCitiesOfState` (Node): empty array when the country or the state
segment is absent; the `catch` absorbs any load error into the empty
array. -/
def nGetCitiesOfState (w : NodeWorld) (countryCode stateCode : String)
    (s : NState) : Except NLoadErr (List ICity) × NState :=
  match getCountryDirName w countryCode s with
  | (none, s1) => (.ok [], s1)
  | (some countryDir, s1) =>
    match getStateDirName w countryCode stateCode s1 with
    | (none, s2) => (.ok [], s2)
    | (some stateDir, s2) =>
      match (nLoadJSON w ("./data/" ++ countryDir ++ "/" ++ stateDir ++ "/cities.json")).1 with
      | .ok d => (.ok d.asCities, s2)
      | .error _ => (.ok [], s2)

/-- Well-formedness of the document tree under the root scope: every
country directory's `meta.json` loads successfully and its `iso2` field
equals the code embedded in the directory name. -/
def metaWellformedB (w : NodeWorld) : Bool :=
  (w.readdir (dataDir w)).all fun dir =>
    match (nLoadJSON w ("./data/" ++ dir ++ "/meta.json")).1 with
    | .ok (.meta m) => m.iso2 == lastDashSuffix dir
    | _ => false

/-! ## Concrete environments for witnesses and counterexamples -/

/-- Browser loader state at module initialisation. -/
def initBState : BState := ⟨initCState, [], []⟩

/-- `configure` as invoked by an application using the browser package. -/
def bConfigure (opts : ConfigOptions) (s : BState) : BState :=
  { s with cfg := configure opts s.cfg }

def demoCountryUS : ICountry := ⟨233, "United States", "US"⟩

def demoMetaUS : ICountryMeta := ⟨233, "United States", "US"⟩

def demoStateCA : IState := ⟨1416, "California", "CA", "US"⟩

def demoCityLA : ICity := ⟨3646, "Los Angeles", "CA", "US"⟩

/-- A small HTTP source: a country document and a states document under
`/data`, 404 (not found) elsewhere; the outcome ignores headers and
signal. -/
def demoBWorld : BWorld :=
  ⟨fun url _ _ =>
    if url = "/data/country/US.json" then .ok (.meta demoMetaUS)
    else if url = "/data/states/US.json" then .ok (.states [demoStateCA])
    else .httpErr 404 "Not Found"⟩

/-- A source whose country-document request rejects with `AbortError`. -/
def abortBWorld : BWorld :=
  ⟨fun url _ _ =>
    if url = "/data/country/US.json" then .abortErr
    else .httpErr 404 "Not Found"⟩

/-- A source serving one document, at URL `/a/b/doc.json`. -/
def collideBWorld : BWorld :=
  ⟨fun url _ _ =>
    if url = "/a/b/doc.json" then .ok (.countries [⟨7, "Atlantis", "AA"⟩])
    else .httpErr 404 "Not Found"⟩

/-- A source that succeeds exactly when the request carries no headers. -/
def headerSensitiveBWorld : BWorld :=
  ⟨fun _ hdrs _ =>
    if hdrs = [] then .ok (.countries [⟨7, "Atlantis", "AA"⟩])
    else .httpErr 500 "Boom"⟩

/-- A Node host with one country directory holding one state directory;
`meta.json`, `states.json` and `cities.json` are readable at the
module-relative candidate; dynamic import always fails module-not-found. -/
def demoNodeWorld : NodeWorld :=
  ⟨"/pkg/dist", "/srv/app",
   fun p =>
     if p = "/pkg/dist/./data/United_States-US/meta.json" then some "metaUS"
     else if p = "/pkg/dist/./data/United_States-US/states.json" then some "statesUS"
     else if p = "/pkg/dist/./data/United_States-US/California-CA/cities.json" then
       some "citiesUSCA"
     else none,
   fun raw =>
     if raw = "metaUS" then some (.meta demoMetaUS)
     else if raw = "statesUS" then some (.states [demoStateCA])
     else if raw = "citiesUSCA" then some (.cities [demoCityLA])
     else none,
   fun p => .error (.moduleNotFound ("Cannot find module " ++ p)),
   fun d =>
     if d = "/pkg/dist/data" then ["United_States-US"]
     else if d = "/pkg/dist/data/United_States-US" then ["California-CA"]
     else []⟩

/-- A Node host where the module-relative candidate for the countries list
is absent but the parent-relative candidate holds it. -/
def fallbackNodeWorld : NodeWorld :=
  ⟨"/pkg/dist", "/srv/app",
   fun p =>
     if p = "/pkg/dist/.././data/countries.json" then some "rawCountries" else none,
   fun raw =>
     if raw = "rawCountries" then some (.countries [demoCountryUS]) else none,
   fun p => .error (.moduleNotFound ("Cannot find module " ++ p)),
   fun _ => []⟩

/-! ## Helper lemmas -/

theorem jsLookup_jsMapSet {κ α : Type} [DecidableEq κ] (m : List (κ × α)) (k k' : κ) (v : α) :
    jsLookup (jsMapSet m k v) k' = if k' = k then some v else jsLookup m k' := by
  induction m with
  | nil =>
    simp only [jsMapSet, jsLookup]
    by_cases h : k = k'
    · rw [if_pos h, if_pos h.symm]
    · rw [if_neg h, if_neg (fun hh => h hh.symm)]
  | cons hd tl ih =>
    obtain ⟨k₀, v₀⟩ := hd
    by_cases hk : k₀ = k
    · subst hk
      simp only [jsMapSet, if_pos rfl, jsLookup]
      by_cases h : k₀ = k'
      · rw [if_pos h, if_pos h.symm]
      · rw [if_neg h, if_neg (fun hh => h hh.symm), if_neg h]
    · simp only [jsMapSet, if_neg hk, jsLookup, ih]
      by_cases h : k₀ = k'
      · have h2 : ¬ k' = k := fun hh => hk (h.trans hh)
        rw [if_pos h, if_neg h2, if_pos h]
      · rw [if_neg h, if_neg h]

theorem jsLookup_buildDirMap_aux (dirs : List String)
    (acc : List (String × String)) (k v : String)
    (h : jsLookup (dirs.foldl (fun m d => jsMapSet m (lastDashSuffix d) d) acc) k
        = some v) :
    (v ∈ dirs ∧ lastDashSuffix v = k) ∨ jsLookup acc k = some v := by
  induction dirs generalizing acc with
  | nil => exact Or.inr h
  | cons d ds ih =>
    rcases ih (jsMapSet acc (lastDashSuffix d) d) h with h1 | h2
    · exact Or.inl ⟨List.mem_cons_of_mem d h1.1, h1.2⟩
    · rw [jsLookup_jsMapSet] at h2
      by_cases hk : k = lastDashSuffix d
      · rw [if_pos hk] at h2
        injection h2 with hdv
        subst hdv
        exact Or.inl ⟨List.mem_cons_self d ds, hk.symm⟩
      · rw [if_neg hk] at h2
        exact Or.inr h2

/-- Every binding of a map built by the segment-map loop comes from an
enumerated segment name, and its key is that name's code suffix. -/
theorem jsLookup_buildDirMap (dirs : List String) (k v : String)
    (h : jsLookup (buildDirMap dirs) k = some v) :
    v ∈ dirs ∧ lastDashSuffix v = k := by
  rcases jsLookup_buildDirMap_aux dirs [] k v h with h1 | h2
  · exact h1
  · simp [jsLookup] at h2

/-! ## C1 -/

/-- C1: refuted at a concrete input.  With a source whose country request
rejects with `AbortError`, the underlying load fails with the timeout
error (not the not-found kind), yet `getCountryByCode` returns `ok null`
rather than re-raising that error. -/
theorem c1_counterexample :
    (bLoadJSON abortBWorld "/country/US.json" none initBState).1
      = .error (.timeout 5000 "/data/country/US.json") ∧
    (bGetCountryByCode abortBWorld "US" initBState).1 = .ok none ∧
    (Except.ok none : Except LoadError (Option Doc))
      ≠ .error (.timeout 5000 "/data/country/US.json") := by
  refine ⟨rfl, rfl, fun h => ?_⟩
  cases h

/-- C1 (amended): for every facade getter and every input, EVERY
underlying load failure — the timeout and parse kinds included, not only
the not-found kind — is absorbed: the single-entity getters return `null`,
the collection getters return the empty collection, and no error
propagates to the caller. -/
theorem c1_getters_absorb_every_load_error
    (w : BWorld) (s : BState) (cc sc : String) (e : LoadError) :
    ((bLoadJSON w ("/country/" ++ cc ++ ".json") none s).1 = .error e →
      (bGetCountryByCode w cc s).1 = .ok none) ∧
    ((bLoadJSON w ("/states/" ++ cc ++ ".json") none s).1 = .error e →
      (bGetStatesOfCountry w cc s).1 = .ok []
        ∧ (bGetStateByCode w cc sc s).1 = .ok none) ∧
    ((bLoadJSON w ("/cities/" ++ cc ++ "-" ++ sc ++ ".json") none s).1 = .error e →
      (bGetCitiesOfState w cc sc s).1 = .ok []) := by
  refine ⟨?_, ?_, ?_⟩
  · intro h
    unfold bGetCountryByCode
    rcases hp : bLoadJSON w ("/country/" ++ cc ++ ".json") none s with ⟨r, s'⟩
    rw [hp] at h
    cases r with
    | ok d => simp at h
    | error e' => rfl
  · intro h
    have hstates : (bGetStatesOfCountry w cc s).1 = .ok [] := by
      unfold bGetStatesOfCountry
      rcases hp : bLoadJSON w ("/states/" ++ cc ++ ".json") none s with ⟨r, s'⟩
      rw [hp] at h
      cases r with
      | ok d => simp at h
      | error e' => rfl
    refine ⟨hstates, ?_⟩
    unfold bGetStateByCode
    rcases hq : bGetStatesOfCountry w cc s with ⟨r2, s2⟩
    rw [hq] at hstates
    have hr2 : r2 = Except.ok [] := hstates
    subst hr2
    rfl
  · intro h
    unfold bGetCitiesOfState
    rcases hp : bLoadJSON w ("/cities/" ++ cc ++ "-" ++ sc ++ ".json") none s with ⟨r, s'⟩
    rw [hp] at h
    cases r with
    | ok d => simp at h
    | error e' => rfl

/-- C1 witness: the amended theorem applied to the aborting source. -/
theorem c1_witness :
    (bGetCountryByCode abortBWorld "US" initBState).1
      = (Except.ok none : Except LoadError (Option Doc)) := by
  exact (c1_getters_absorb_every_load_error abortBWorld initBState "US" "CA"
    (.timeout 5000 "/data/country/US.json")).1 rfl

/-! ## C2 -/

/-- Evaluation of `loadJSON` on a cache miss with a successful fetch: the
document is returned and, caching being on, written into the cache keyed
by the fully-resolved path; exactly one fetch is logged. -/
theorem bLoadJSON_fresh_ok (w : BWorld) (path : String) (s : BState) (d : Doc)
    (hcache : (readConfig s.cfg).cache = true)
    (hmiss : jsLookup s.cache ((readConfig s.cfg).baseURL ++ path) = none)
    (hfetch : w.fetch ((readConfig s.cfg).baseURL ++ path)
        (readConfig s.cfg).headers .timeoutCtrl = .ok d) :
    bLoadJSON w path none s
      = (.ok d,
         { s with
             cache := jsMapSet s.cache ((readConfig s.cfg).baseURL ++ path) d
             fetchLog := s.fetchLog ++ [(readConfig s.cfg).baseURL ++ path] }) := by
  simp only [bLoadJSON, hcache, fetchSignal, hfetch, if_true]
  rw [hmiss]

/-- Evaluation of `loadJSON` on a cache hit: the cached document is
returned and the state (in particular the fetch log) is unchanged. -/
theorem bLoadJSON_hit (w : BWorld) (path : String) (s : BState) (d : Doc)
    (hcache : (readConfig s.cfg).cache = true)
    (hhit : jsLookup s.cache ((readConfig s.cfg).baseURL ++ path) = some d) :
    bLoadJSON w path none s = (.ok d, s) := by
  simp only [bLoadJSON, hcache, if_true]
  rw [hhit]

/-- C2: with caching enabled, a fresh key and a source that serves the
country document, two identical `getCountryByCode` calls perform exactly
one underlying load: the first call fetches once, writes the document into
the result cache under the fully-resolved path and returns it; the second
call is served from the cache, changing nothing — and both calls return
structurally equal results. -/
theorem c2_one_load_two_equal_results
    (w : BWorld) (cc : String) (s : BState) (d : Doc)
    (hcache : (readConfig s.cfg).cache = true)
    (hmiss : jsLookup s.cache
        ((readConfig s.cfg).baseURL ++ ("/country/" ++ cc ++ ".json")) = none)
    (hfetch : w.fetch ((readConfig s.cfg).baseURL ++ ("/country/" ++ cc ++ ".json"))
        (readConfig s.cfg).headers .timeoutCtrl = .ok d) :
    (bGetCountryByCode w cc s).1 = .ok (some d) ∧
    jsLookup (bGetCountryByCode w cc s).2.cache
        ((readConfig s.cfg).baseURL ++ ("/country/" ++ cc ++ ".json")) = some d ∧
    (bGetCountryByCode w cc s).2.fetchLog
        = s.fetchLog ++ [(readConfig s.cfg).baseURL ++ ("/country/" ++ cc ++ ".json")] ∧
    bGetCountryByCode w cc (bGetCountryByCode w cc s).2
        = ((bGetCountryByCode w cc s).1, (bGetCountryByCode w cc s).2) := by
  have h1 := bLoadJSON_fresh_ok w ("/country/" ++ cc ++ ".json") s d hcache hmiss hfetch
  have hget : bGetCountryByCode w cc s
      = (.ok (some d),
         { s with
             cache := jsMapSet s.cache
               ((readConfig s.cfg).baseURL ++ ("/country/" ++ cc ++ ".json")) d
             fetchLog := s.fetchLog
               ++ [(readConfig s.cfg).baseURL ++ ("/country/" ++ cc ++ ".json")] }) := by
    unfold bGetCountryByCode
    rw [h1]
  rw [hget]
  refine ⟨rfl, ?_, rfl, ?_⟩
  · show jsLookup (jsMapSet s.cache
        ((readConfig s.cfg).baseURL ++ ("/country/" ++ cc ++ ".json")) d)
        ((readConfig s.cfg).baseURL ++ ("/country/" ++ cc ++ ".json")) = some d
    rw [jsLookup_jsMapSet, if_pos rfl]
  · have h2 := bLoadJSON_hit w ("/country/" ++ cc ++ ".json")
      { s with
          cache := jsMapSet s.cache
            ((readConfig s.cfg).baseURL ++ ("/country/" ++ cc ++ ".json")) d
          fetchLog := s.fetchLog
            ++ [(readConfig s.cfg).baseURL ++ ("/country/" ++ cc ++ ".json")] }
      d hcache
      (by
        show jsLookup (jsMapSet s.cache
            ((readConfig s.cfg).baseURL ++ ("/country/" ++ cc ++ ".json")) d)
            ((readConfig s.cfg).baseURL ++ ("/country/" ++ cc ++ ".json")) = some d
        rw [jsLookup_jsMapSet, if_pos rfl])
    unfold bGetCountryByCode
    rw [h2]

/-- C2 witness: the theorem at the demo source, code `US`, from the
initial state. -/
theorem c2_witness :
    (bGetCountryByCode demoBWorld "US" initBState).1 = .ok (some (.meta demoMetaUS)) ∧
    bGetCountryByCode demoBWorld "US" (bGetCountryByCode demoBWorld "US" initBState).2
      = ((bGetCountryByCode demoBWorld "US" initBState).1,
         (bGetCountryByCode demoBWorld "US" initBState).2) := by
  have h := c2_one_load_two_equal_results demoBWorld "US" initBState
    (.meta demoMetaUS) rfl rfl rfl
  exact ⟨h.1, h.2.2.2⟩

/-! ## C3 -/

/-- C3: within one load, the candidates (module-relative path,
parent-relative path, absolute install-root path, then dynamic import) are
attempted strictly in listed order; the first candidate that yields the
document is returned and the remaining candidates — dynamic import
included — are not attempted; if the first candidate is absent but a later
candidate is present, the load succeeds with the later candidate's
document; and when every candidate fails (every read fails and the
dynamic-import strategy reports module-not-found), the load fails with
that not-found error. -/
theorem c3_strategies_in_order_first_success (w : NodeWorld) (path : String) :
    (∀ raw d, w.readFile (pjoin w.basePath path) = some raw →
      w.parse raw = some d →
      nLoadJSON w path = (.ok d, ⟨[pjoin w.basePath path], []⟩)) ∧
    (∀ raw d, w.readFile (pjoin w.basePath path) = none →
      w.readFile (pjoin (pjoin w.basePath "..") path) = some raw →
      w.parse raw = some d →
      nLoadJSON w path
        = (.ok d, ⟨[pjoin w.basePath path, pjoin (pjoin w.basePath "..") path], []⟩)) ∧
    (∀ raw d, w.readFile (pjoin w.basePath path) = none →
      w.readFile (pjoin (pjoin w.basePath "..") path) = none →
      w.readFile (pjoin w.cwd (pjoin "node_modules" (pjoin "@countrystatecity"
          (pjoin "countries" (pjoin "dist" path))))) = some raw →
      w.parse raw = some d →
      nLoadJSON w path = (.ok d, ⟨nPossiblePaths w path, []⟩)) ∧
    (∀ msg, w.readFile (pjoin w.basePath path) = none →
      w.readFile (pjoin (pjoin w.basePath "..") path) = none →
      w.readFile (pjoin w.cwd (pjoin "node_modules" (pjoin "@countrystatecity"
          (pjoin "countries" (pjoin "dist" path))))) = none →
      w.dynImport path = .error (.moduleNotFound msg) →
      nLoadJSON w path
        = (.error (.moduleNotFound msg), ⟨nPossiblePaths w path, [path]⟩)) := by
  refine ⟨?_, ?_, ?_, ?_⟩
  · intro raw d h0 hp
    simp only [nLoadJSON, nPossiblePaths, nFsScan, h0, hp]
  · intro raw d h0 h1 hp
    simp only [nLoadJSON, nPossiblePaths, nFsScan, h0, h1, hp]
  · intro raw d h0 h1 h2 hp
    simp only [nLoadJSON, nPossiblePaths, nFsScan, h0, h1, h2, hp]
  · intro msg h0 h1 h2 hdyn
    simp only [nLoadJSON, nPossiblePaths, nFsScan, h0, h1, h2, hdyn]

/-- C3 witness: the fallback scenario at a concrete host — the
module-relative candidate is absent, the parent-relative candidate holds
the countries document, and the load returns it having read exactly the
first two candidates and tried no dynamic import. -/
theorem c3_witness :
    nLoadJSON fallbackNodeWorld "./data/countries.json"
      = (.ok (.countries [demoCountryUS]),
         ⟨["/pkg/dist" ++ "/" ++ "./data/countries.json",
           "/pkg/dist" ++ "/" ++ ".." ++ "/" ++ "./data/countries.json"], []⟩) := by
  exact (c3_strategies_in_order_first_success fallbackNodeWorld
    "./data/countries.json").2.1 "rawCountries" (.countries [demoCountryUS]) rfl rfl rfl

/-! ## C4 -/

/-- C4: when the document tree is well-formed (every country directory's
meta document loads and its `code` field equals the code embedded in the
directory name), `getCountryByCode` returns, for every code present in the
root segment map, a record whose `code` field equals the query code; for
every absent code it returns `null`; and it never throws. -/
theorem c4_getCountryByCode_contract (w : NodeWorld) (code : String)
    (hwf : metaWellformedB w = true) :
    (∀ dir, jsLookup (buildDirMap (w.readdir (dataDir w))) code = some dir →
      ∃ m : ICountryMeta,
        (nGetCountryByCode w code initNState).1 = .ok (some (.meta m))
          ∧ m.iso2 = code) ∧
    (jsLookup (buildDirMap (w.readdir (dataDir w))) code = none →
      (nGetCountryByCode w code initNState).1 = .ok none) ∧
    (∃ r, (nGetCountryByCode w code initNState).1 = .ok r) := by
  have hresolve : getCountryDirName w code initNState
      = (jsLookup (buildDirMap (w.readdir (dataDir w))) code,
         { initNState with
             countryDirMap := some (buildDirMap (w.readdir (dataDir w)))
             readdirLog := initNState.readdirLog ++ [dataDir w] }) := rfl
  have hpresent : ∀ dir,
      jsLookup (buildDirMap (w.readdir (dataDir w))) code = some dir →
      ∃ m : ICountryMeta,
        (nGetCountryByCode w code initNState).1 = .ok (some (.meta m))
          ∧ m.iso2 = code := by
    intro dir hdir
    obtain ⟨hmem, hsuf⟩ := jsLookup_buildDirMap _ _ _ hdir
    have hall := (List.all_eq_true.mp hwf) dir hmem
    unfold nGetCountryByCode
    rw [hresolve, hdir]
    dsimp only
    cases hload : (nLoadJSON w ("./data/" ++ dir ++ "/meta.json")).1 with
    | error e => rw [hload] at hall; simp at hall
    | ok d =>
      cases d with
      | meta m =>
        rw [hload] at hall
        simp only [beq_iff_eq] at hall
        exact ⟨m, rfl, hall.trans hsuf⟩
      | countries xs => rw [hload] at hall; simp at hall
      | states xs => rw [hload] at hall; simp at hall
      | cities xs => rw [hload] at hall; simp at hall
  have habsent : jsLookup (buildDirMap (w.readdir (dataDir w))) code = none →
      (nGetCountryByCode w code initNState).1 = .ok none := by
    intro hnone
    unfold nGetCountryByCode
    rw [hresolve, hnone]
  refine ⟨hpresent, habsent, ?_⟩
  cases hmap : jsLookup (buildDirMap (w.readdir (dataDir w))) code with
  | none => exact ⟨none, habsent hmap⟩
  | some dir =>
    obtain ⟨m, hm, _⟩ := hpresent dir hmap
    exact ⟨some (.meta m), hm⟩

/-- C4 witness: at the demo host, `US` is present in the root map and
resolves to its meta record; `ZZ` is absent and yields `null`. -/
theorem c4_witness :
    (∃ m : ICountryMeta,
      (nGetCountryByCode demoNodeWorld "US" initNState).1 = .ok (some (.meta m))
        ∧ m.iso2 = "US") ∧
    (nGetCountryByCode demoNodeWorld "ZZ" initNState).1 = .ok none := by
  constructor
  · exact (c4_getCountryByCode_contract demoNodeWorld "US" (by decide)).1
      "United_States-US" (by decide)
  · exact (c4_getCountryByCode_contract demoNodeWorld "ZZ" (by decide)).2.1 (by decide)

/-! ## C5 -/

/-- C5: refuted at a concrete input.  When the caller supplies their own
signal in the request options, `fetch` listens to that signal instead of
the timeout controller's, so against a never-responding source the load
hangs instead of completing with the timeout error: the configured timeout
does not abort the in-flight request. -/
theorem c5_counterexample :
    slowFetchPhase 50 "/data/countries.json" (some ⟨some (), none⟩) = .hangs ∧
    SlowLoad.hangs ≠ SlowLoad.completes (.timeout 50 "/data/countries.json") := by
  refine ⟨rfl, fun h => ?_⟩
  cases h

/-- C5 (amended): when the caller supplies no signal, the fetch listens to
the load's own timeout controller, so against a never-responding source the
timer's abort completes the load with the timeout error — an error kind
distinct from the failed-fetch (not-found) kind; when the caller supplies
their own signal, the timeout's abort cannot cancel the in-flight request
and the load hangs until the caller's signal fires.  In the settled-outcome
model an aborted fetch is always surfaced as the timeout error, never as
not-found. -/
theorem c5_timeout_aborts_only_without_caller_signal
    (ms : Nat) (fp : String) (opts : Option FetchOptions) :
    (fetchSignal opts = .timeoutCtrl →
      slowFetchPhase ms fp opts = .completes (.timeout ms fp)) ∧
    (fetchSignal opts = .caller → slowFetchPhase ms fp opts = .hangs) ∧
    (∀ p st stt, (LoadError.timeout ms fp) ≠ .fetchFailed p st stt) ∧
    (∀ (w : BWorld) (path : String) (s : BState),
      (readConfig s.cfg).cache = true →
      jsLookup s.cache ((readConfig s.cfg).baseURL ++ path) = none →
      w.fetch ((readConfig s.cfg).baseURL ++ path) (readConfig s.cfg).headers
          (fetchSignal opts) = .abortErr →
      (bLoadJSON w path opts s).1
        = .error (.timeout (readConfig s.cfg).timeout
            ((readConfig s.cfg).baseURL ++ path))) := by
  refine ⟨?_, ?_, ?_, ?_⟩
  · intro h
    unfold slowFetchPhase
    rw [h]
  · intro h
    unfold slowFetchPhase
    rw [h]
  · intro p st stt h
    cases h
  · intro w path s hcache hmiss habort
    simp only [bLoadJSON, hcache, if_true, habort]
    rw [hmiss]

/-- C5 witness: with no caller signal and a 50 millisecond timeout, the
load against a never-responding source completes with the timeout error. -/
theorem c5_witness :
    slowFetchPhase 50 "/data/countries.json" none
      = .completes (.timeout 50 "/data/countries.json") := by
  exact (c5_timeout_aborts_only_without_caller_signal 50
    "/data/countries.json" none).1 rfl

/-! ## C6 -/

/-- C6: on every resolution failure folded into not-found — the children
document failing to load (browser), the country code absent from the root
map, the state code absent from the per-country map, or the children
document failing to load (Node) — the collection getters return the empty
collection as a normal `ok` value: not `null` and not a thrown error. -/
theorem c6_collections_empty_on_notfound :
    (∀ (w : BWorld) (cc : String) (s : BState) (e : LoadError),
      (bLoadJSON w ("/states/" ++ cc ++ ".json") none s).1 = .error e →
      (bGetStatesOfCountry w cc s).1 = .ok []) ∧
    (∀ (w : BWorld) (cc sc : String) (s : BState) (e : LoadError),
      (bLoadJSON w ("/cities/" ++ cc ++ "-" ++ sc ++ ".json") none s).1 = .error e →
      (bGetCitiesOfState w cc sc s).1 = .ok []) ∧
    (∀ (w : NodeWorld) (cc : String) (s : NState),
      (getCountryDirName w cc s).1 = none →
      (nGetStatesOfCountry w cc s).1 = .ok []) ∧
    (∀ (w : NodeWorld) (cc sc : String) (s : NState) (cd : String) (s1 : NState),
      getCountryDirName w cc s = (some cd, s1) →
      (getStateDirName w cc sc s1).1 = none →
      (nGetCitiesOfState w cc sc s).1 = .ok []) ∧
    (∀ (w : NodeWorld) (cc : String) (s : NState) (cd : String) (s1 : NState)
        (e : NLoadErr),
      getCountryDirName w cc s = (some cd, s1) →
      (nLoadJSON w ("./data/" ++ cd ++ "/states.json")).1 = .error e →
      (nGetStatesOfCountry w cc s).1 = .ok []) := by
  refine ⟨?_, ?_, ?_, ?_, ?_⟩
  · intro w cc s e h
    unfold bGetStatesOfCountry
    rcases hp : bLoadJSON w ("/states/" ++ cc ++ ".json") none s with ⟨r, s'⟩
    rw [hp] at h
    cases r with
    | ok d => simp at h
    | error e' => rfl
  · intro w cc sc s e h
    unfold bGetCitiesOfState
    rcases hp : bLoadJSON w ("/cities/" ++ cc ++ "-" ++ sc ++ ".json") none s with ⟨r, s'⟩
    rw [hp] at h
    cases r with
    | ok d => simp at h
    | error e' => rfl
  · intro w cc s h
    unfold nGetStatesOfCountry
    rcases hp : getCountryDirName w cc s with ⟨r, s1⟩
    rw [hp] at h
    have hr : r = none := h
    subst hr
    rfl
  · intro w cc sc s cd s1 hcd h
    unfold nGetCitiesOfState
    rw [hcd]
    dsimp only
    rcases hq : getStateDirName w cc sc s1 with ⟨r2, s2⟩
    rw [hq] at h
    have hr2 : r2 = none := h
    subst hr2
    rfl
  · intro w cc s cd s1 e hcd h
    unfold nGetStatesOfCountry
    rw [hcd]
    dsimp only
    rw [h]

/-- C6 witness: requesting the states of the nonexistent code `ZZ` at the
demo host yields the empty collection. -/
theorem c6_witness :
    (nGetStatesOfCountry demoNodeWorld "ZZ" initNState).1 = .ok [] := by
  exact c6_collections_empty_on_notfound.2.2.1 demoNodeWorld "ZZ" initNState
    (by decide)

/-! ## C7 -/

/-- C7: the segment resolver enumerates each parent scope at most once —
with the root map memoized, `getCountryDirName` is a pure lookup leaving
the state (the enumeration log included) unchanged; an unmemoized call
builds the map from one enumeration of the scope and appends exactly that
one enumeration to the log; with both maps memoized, `getStateDirName`
likewise leaves the state unchanged — and every entry of a built map has
as key exactly the suffix of its segment-name value after the last `-`
separator. -/
theorem c7_resolver_memoizes_and_invariant :
    (∀ (w : NodeWorld) (code : String) (s : NState) (m : List (String × String)),
      s.countryDirMap = some m →
      getCountryDirName w code s = (jsLookup m code, s)) ∧
    (∀ (w : NodeWorld) (code : String) (s : NState),
      s.countryDirMap = none →
      getCountryDirName w code s
        = (jsLookup (buildDirMap (w.readdir (dataDir w))) code,
           { s with
               countryDirMap := some (buildDirMap (w.readdir (dataDir w)))
               readdirLog := s.readdirLog ++ [dataDir w] })) ∧
    (∀ (w : NodeWorld) (cc sc : String) (s : NState)
        (m sm : List (String × String)),
      s.countryDirMap = some m →
      jsLookup s.stateDirMaps cc = some sm →
      (getStateDirName w cc sc s).2 = s) ∧
    (∀ (dirs : List String) (k v : String),
      jsLookup (buildDirMap dirs) k = some v → lastDashSuffix v = k) := by
  have hmemo : ∀ (w : NodeWorld) (code : String) (s : NState)
      (m : List (String × String)),
      s.countryDirMap = some m →
      getCountryDirName w code s = (jsLookup m code, s) := by
    intro w code s m h
    unfold getCountryDirName
    rw [h]
  refine ⟨hmemo, ?_, ?_, ?_⟩
  · intro w code s h
    unfold getCountryDirName
    rw [h]
  · intro w cc sc s m sm hmap hsm
    unfold getStateDirName
    rw [hmemo w cc s m hmap]
    dsimp only
    cases hc : jsLookup m cc with
    | none => rfl
    | some cd =>
      dsimp only
      rw [hsm]
  · intro dirs k v h
    exact (jsLookup_buildDirMap dirs k v h).2

/-- C7 witness: at the demo host, a second `getCountryDirName` call is a
pure lookup on the state produced by the first call, and the invariant
holds at the concrete map entry. -/
theorem c7_witness :
    getCountryDirName demoNodeWorld "US"
        (getCountryDirName demoNodeWorld "US" initNState).2
      = (some "United_States-US",
         (getCountryDirName demoNodeWorld "US" initNState).2) ∧
    lastDashSuffix "United_States-US" = "US" := by
  constructor
  · have h := c7_resolver_memoizes_and_invariant.1 demoNodeWorld "US"
      (getCountryDirName demoNodeWorld "US" initNState).2
      (buildDirMap (demoNodeWorld.readdir (dataDir demoNodeWorld))) (by decide)
    rw [h]
    decide
  · exact c7_resolver_memoizes_and_invariant.2.2.2 ["United_States-US"] "US"
      "United_States-US" (by decide)

/-! ## C8 -/

/-- C8: the derived utilities agree with the collection getter they are
defined from: `isValidStateCode` answers true exactly when
`getStateByCode` returns a state; `getStateNameByCode` returns exactly
that state's `name` field (`null` when it is absent); and all three are
in-memory filters over the same single `getStatesOfCountry` resolution —
their resulting loader states coincide with that call's. -/
theorem c8_derived_utilities_agree
    (w : BWorld) (cc sc : String) (s : BState) :
    ((isValidStateCode w cc sc s).1 = .ok true ↔
      ∃ st, (bGetStateByCode w cc sc s).1 = .ok (some st)) ∧
    (getStateNameByCode w cc sc s).1
      = Except.map (fun o => Option.map (fun st : IState => st.name) o)
          (bGetStateByCode w cc sc s).1 ∧
    (isValidStateCode w cc sc s).2 = (bGetStatesOfCountry w cc s).2 ∧
    (bGetStateByCode w cc sc s).2 = (bGetStatesOfCountry w cc s).2 ∧
    (getStateNameByCode w cc sc s).2 = (bGetStatesOfCountry w cc s).2 := by
  unfold isValidStateCode bGetStateByCode getStateNameByCode
  rcases hp : bGetStatesOfCountry w cc s with ⟨r, s'⟩
  cases r with
  | error e =>
    refine ⟨?_, rfl, rfl, rfl, rfl⟩
    constructor
    · intro h; exact absurd h (by simp)
    · rintro ⟨st, hst⟩; exact absurd hst (by simp)
  | ok states =>
    refine ⟨?_, ?_, rfl, rfl, rfl⟩
    · simp only [Except.ok.injEq]
      constructor
      · intro hany
        obtain ⟨st, hmem, hpred⟩ := List.any_eq_true.mp hany
        have hsome : (states.find? fun st => st.iso2 == sc).isSome :=
          List.find?_isSome.mpr ⟨st, hmem, hpred⟩
        obtain ⟨st', hst'⟩ := Option.isSome_iff_exists.mp hsome
        exact ⟨st', hst'⟩
      · rintro ⟨st, hst⟩
        have hpred := List.find?_some hst
        have hmem : st ∈ states := List.mem_of_find?_eq_some hst
        exact List.any_eq_true.mpr ⟨st, hmem, hpred⟩
    · dsimp only
      cases hf : states.find? (fun st => st.iso2 == sc) with
      | none => rfl
      | some st => rfl

/-! ## C9 -/

/-- C9: refuted at a concrete trace.  With `baseURL` `/a`, loading
`/b/doc.json` caches the document under the concatenated key
`/a/b/doc.json`; after `configure` changes `baseURL` to `/a/b`, loading
`/doc.json` resolves to the same concatenated key and is served — without
any fetch — from the entry written under the previous `baseURL`.  So a
load issued after a `baseURL` change CAN return a document cached under
the previous `baseURL`. -/
theorem c9_counterexample :
    ((bLoadJSON collideBWorld "/doc.json" none
        (bConfigure ⟨some "/a/b", none, none, none⟩
          (bLoadJSON collideBWorld "/b/doc.json" none
            (bConfigure ⟨some "/a", none, none, none⟩ initBState)).2)).1
      = .ok (.countries [⟨7, "Atlantis", "AA"⟩])) ∧
    ((bLoadJSON collideBWorld "/doc.json" none
        (bConfigure ⟨some "/a/b", none, none, none⟩
          (bLoadJSON collideBWorld "/b/doc.json" none
            (bConfigure ⟨some "/a", none, none, none⟩ initBState)).2)).2.fetchLog
      = ["/a/b/doc.json"]) := by
  constructor <;> rfl

/-- C9 (amended): every cache key is the concatenation of the `baseURL`
current at call time with the document path; consequently a load issued
after a `baseURL` change is served from an old entry exactly when the two
concatenations collide (which the counterexample shows is possible).  A
load never evicts or overwrites an existing entry: it either leaves the
cache unchanged or adds the binding for its own (previously absent) key,
and every binding present before a load is intact, with the same document,
after it; entries are removed only by `clearCache`, which empties the
whole cache at once. -/
theorem c9_cache_keys_and_no_eviction
    (w : BWorld) (path : String) (opts : Option FetchOptions) (s : BState) :
    ((bLoadJSON w path opts s).2.cache = s.cache ∨
      ∃ d, (bLoadJSON w path opts s).1 = .ok d ∧
        jsLookup s.cache ((readConfig s.cfg).baseURL ++ path) = none ∧
        (bLoadJSON w path opts s).2.cache
          = jsMapSet s.cache ((readConfig s.cfg).baseURL ++ path) d) ∧
    (∀ k d, jsLookup s.cache k = some d →
      jsLookup (bLoadJSON w path opts s).2.cache k = some d) ∧
    (clearCache s).cache = [] := by
  have H : (bLoadJSON w path opts s).2.cache = s.cache ∨
      ∃ d, (bLoadJSON w path opts s).1 = .ok d ∧
        jsLookup s.cache ((readConfig s.cfg).baseURL ++ path) = none ∧
        (bLoadJSON w path opts s).2.cache
          = jsMapSet s.cache ((readConfig s.cfg).baseURL ++ path) d := by
    cases hc : (readConfig s.cfg).cache with
    | false =>
      simp only [bLoadJSON, hc, Bool.false_eq_true, if_false]
      cases hf : w.fetch ((readConfig s.cfg).baseURL ++ path)
          (readConfig s.cfg).headers (fetchSignal opts) with
      | ok d => left; rfl
      | httpErr st stt => left; rfl
      | jsonErr => left; rfl
      | abortErr => left; rfl
      | netErr m => left; rfl
    | true =>
      cases hlook : jsLookup s.cache ((readConfig s.cfg).baseURL ++ path) with
      | some d =>
        simp only [bLoadJSON, hc, if_true]
        rw [hlook]
        left; rfl
      | none =>
        simp only [bLoadJSON, hc, if_true]
        rw [hlook]
        cases hf : w.fetch ((readConfig s.cfg).baseURL ++ path)
            (readConfig s.cfg).headers (fetchSignal opts) with
        | ok d => right; exact ⟨d, rfl, trivial, rfl⟩
        | httpErr st stt => left; rfl
        | jsonErr => left; rfl
        | abortErr => left; rfl
        | netErr m => left; rfl
  refine ⟨H, ?_, rfl⟩
  intro k d hkd
  rcases H with hsame | ⟨d', _, hnone, hset⟩
  · rw [hsame]; exact hkd
  · rw [hset, jsLookup_jsMapSet]
    by_cases hkk : k = (readConfig s.cfg).baseURL ++ path
    · rw [hkk] at hkd
      rw [hkd] at hnone
      cases hnone
    · rw [if_neg hkk]
      exact hkd

/-- C9 witness: after a first load has cached the country document, a
later load of a different path leaves that binding intact. -/
theorem c9_witness :
    jsLookup (bLoadJSON demoBWorld "/states/US.json" none
        (bGetCountryByCode demoBWorld "US" initBState).2).2.cache
      "/data/country/US.json" = some (.meta demoMetaUS) := by
  exact (c9_cache_keys_and_no_eviction demoBWorld "/states/US.json" none
    (bGetCountryByCode demoBWorld "US" initBState).2).2.1
    "/data/country/US.json" (.meta demoMetaUS) (by rfl)

/-! ## C10 -/

/-- A key with no binding in the spread source keeps its value across an
object-spread merge. -/
theorem jsLookup_jsAssign_not_mem (a b : List (String × String)) (k : String)
    (h : ∀ v, (k, v) ∉ b) :
    jsLookup (jsAssign a b) k = jsLookup a k := by
  induction b generalizing a with
  | nil => rfl
  | cons hd bs ih =>
    obtain ⟨k₀, v₀⟩ := hd
    have hk : ¬ k = k₀ := by
      intro hkk
      exact h v₀ (by rw [hkk]; exact List.mem_cons_self _ _)
    have hrest : ∀ v, (k, v) ∉ bs := fun v hv => h v (List.mem_cons_of_mem _ hv)
    show jsLookup (jsAssign (jsMapSet a k₀ v₀) bs) k = jsLookup a k
    rw [ih (jsMapSet a k₀ v₀) hrest, jsLookup_jsMapSet, if_neg hk]

/-- C10: refuted at a concrete input.  `getConfig` returns a shallow copy
sharing the headers object of `currentConfig`; mutating a header through
the returned copy changes the headers every subsequent load passes to
`fetch`, and against a header-sensitive source a load that succeeded
before the mutation fails after it — mutating the returned object DOES
change subsequent loader behavior. -/
theorem c10_counterexample :
    (bLoadJSON headerSensitiveBWorld "/countries.json" none initBState).1
      = .ok (.countries [⟨7, "Atlantis", "AA"⟩]) ∧
    (bLoadJSON headerSensitiveBWorld "/countries.json" none
        { initBState with
            cfg := setHeaderThrough initBState.cfg (getConfig initBState.cfg)
                     "X-Auth" "evil" }).1
      = .error (.fetchFailed "/data/countries.json" 500 "Boom") := by
  constructor <;> rfl

/-- C10 (amended): `configure` leaves every configuration field not
present in the options unchanged and builds the new headers by writing the
options' headers key-by-key over the current ones (a header key absent
from the options keeps its value); `resetConfiguration` restores the
observed defaults (`baseURL` `/data`, cache on, timeout 5000, and — the
default headers object being unmutated — empty headers); and `getConfig`
returns a SHALLOW copy: reassigning a scalar field of the copy is pure
value replacement that cannot touch the module state, but the copy shares
the headers object by reference, so mutating the headers through the
returned copy changes the headers subsequent loads pass to `fetch`. -/
theorem c10_configure_merge_reset_shallow_copy
    (s : CState) (opts : ConfigOptions) :
    (opts.baseURL = none → (configure opts s).current.baseURL = s.current.baseURL) ∧
    (opts.cache = none → (configure opts s).current.cache = s.current.cache) ∧
    (opts.timeout = none → (configure opts s).current.timeout = s.current.timeout) ∧
    (effHeaders (configure opts s) (configure opts s).current
      = jsAssign (effHeaders s s.current) (opts.headers.getD [])) ∧
    (∀ k, (∀ v, (k, v) ∉ opts.headers.getD []) →
      jsLookup (effHeaders (configure opts s) (configure opts s).current) k
        = jsLookup (effHeaders s s.current) k) ∧
    (jsLookup s.heap 0 = some [] →
      readConfig (resetConfiguration s) = ⟨"/data", true, 5000, []⟩) ∧
    (getConfig s = s.current ∧ (getConfig s).headersRef = s.current.headersRef) ∧
    (∀ u, (setBaseURLOnCopy (getConfig s) u).baseURL = u
      ∧ (setBaseURLOnCopy (getConfig s) u).headersRef = s.current.headersRef) ∧
    (∀ k v, effHeaders (setHeaderThrough s (getConfig s) k v) s.current
      = jsMapSet (effHeaders s s.current) k v) := by
  have hmerge : effHeaders (configure opts s) (configure opts s).current
      = jsAssign (effHeaders s s.current) (opts.headers.getD []) := by
    unfold effHeaders heapGet configure
    dsimp only
    rw [jsLookup_jsMapSet, if_pos rfl]
    rfl
  refine ⟨?_, ?_, ?_, hmerge, ?_, ?_, ⟨rfl, rfl⟩, ?_, ?_⟩
  · intro h; unfold configure; rw [h]; rfl
  · intro h; unfold configure; rw [h]; rfl
  · intro h; unfold configure; rw [h]; rfl
  · intro k hk
    rw [hmerge]
    exact jsLookup_jsAssign_not_mem _ _ k hk
  · intro h0
    unfold readConfig resetConfiguration effHeaders heapGet
    dsimp only
    have h0' : jsLookup s.heap defaultConfig.headersRef = some [] := h0
    rw [h0']
    rfl
  · intro u
    exact ⟨rfl, rfl⟩
  · intro k v
    unfold effHeaders setHeaderThrough heapGet getConfig
    dsimp only
    rw [jsLookup_jsMapSet, if_pos rfl]
    rfl

/-- C10 witness: the amended theorem at the initial state — reset restores
the observed defaults, and a partial `configure` call keeps the cache flag. -/
theorem c10_witness :
    readConfig (resetConfiguration initCState) = ⟨"/data", true, 5000, []⟩ ∧
    (configure ⟨some "/cdn", none, none, none⟩ initCState).current.cache = true := by
  constructor
  · exact (c10_configure_merge_reset_shallow_copy initCState
      ⟨some "/cdn", none, none, none⟩).2.2.2.2.2.1 rfl
  · have h := (c10_configure_merge_reset_shallow_copy initCState
      ⟨some "/cdn", none, none, none⟩).2.1 rfl
    rw [h]
    rfl

end CSC
